import Mathlib

/-!
# Verification of the cover-art grid compositor (`src/cache.py`)

Shallow embedding of the tile-layout, validation and grid-assembly code of
`CoverArtGenerator` in `src/cache.py`, together with proofs of the spec's
claims about it.  Python integers are modelled as `Int` (Python `//` and `%`
are floor division and floor modulus, i.e. `Int.ediv`/`Int.emod` for the
positive divisors used here); fallible code returns `Option`/`Except`.
Python string primitives (`strip`, `split`, slicing, `int(...)`) are modelled
by structural functions over the character list of a `String`, following
Python's semantics.
-/

/-! ## Python string primitives -/

/-- Python `str.strip()` on a character list: drop whitespace on both ends. -/
def pyStripChars (cs : List Char) : List Char :=
  ((cs.dropWhile Char.isWhitespace).reverse.dropWhile Char.isWhitespace).reverse

/-- Python `str.strip()`. -/
def pyStrip (s : String) : String :=
  String.mk (pyStripChars s.toList)

/-- Python `str.split(",")` on a character list: `[]` maps to `[[]]`, and each
comma starts a new (possibly empty) token. -/
def splitCommaChars : List Char → List (List Char)
  | [] => [[]]
  | c :: rest =>
    if c = ',' then [] :: splitCommaChars rest
    else
      match splitCommaChars rest with
      | t :: ts => (c :: t) :: ts
      | [] => [[c]]

/-- Python `str.split(",")`. -/
def pySplitComma (s : String) : List String :=
  (splitCommaChars s.toList).map String.mk

/-- Python `str.startswith("#")`. -/
def pyStartsWithHash (s : String) : Bool :=
  match s.toList with
  | '#' :: _ => true
  | _ => false

/-- Python slicing `s[a:b]` (character-based, clamped like Python's). -/
def pySlice (s : String) (a b : Nat) : String :=
  String.mk ((s.toList.drop a).take (b - a))

/-! ## A model of Python's `int(s, base)`

`int` strips surrounding whitespace, accepts an optional sign, for base 16 an
optional `0x`/`0X` prefix, and digits in the base with single underscores
allowed only between digits.  It fails (raises `ValueError`) otherwise, in
particular on the empty string. -/

def isPyDigit (base : Nat) (c : Char) : Bool :=
  if base = 16 then
    (('0' ≤ c && c ≤ '9') || ('a' ≤ c && c ≤ 'f') || ('A' ≤ c && c ≤ 'F'))
  else
    ('0' ≤ c && c ≤ '9')

def pyDigitVal (c : Char) : Nat :=
  if 'a' ≤ c && c ≤ 'f' then c.toNat - 'a'.toNat + 10
  else if 'A' ≤ c && c ≤ 'F' then c.toNat - 'A'.toNat + 10
  else c.toNat - '0'.toNat

/-- Digits after the first one: an underscore must be followed by a digit. -/
def pyDigitsAux (base : Nat) (acc : Nat) : List Char → Option Nat
  | [] => some acc
  | '_' :: c :: cs =>
      if isPyDigit base c then pyDigitsAux base (acc * base + pyDigitVal c) cs else none
  | ['_'] => none
  | c :: cs =>
      if isPyDigit base c then pyDigitsAux base (acc * base + pyDigitVal c) cs else none

/-- A nonempty digit string (no sign, no prefix); must start with a digit. -/
def pyDigits (base : Nat) : List Char → Option Nat
  | [] => none
  | c :: cs => if isPyDigit base c then pyDigitsAux base (pyDigitVal c) cs else none

/-- Magnitude part: for base 16 an optional `0x`/`0X` prefix is allowed. -/
def pyIntAbs (base : Nat) (cs : List Char) : Option Nat :=
  match cs with
  | '0' :: x :: rest =>
      if base = 16 && (x = 'x' || x = 'X') then pyDigits base rest
      else pyDigits base cs
  | _ => pyDigits base cs

/-- Python `int(s, base)`: strip whitespace, optional sign, digits. -/
def pyInt (base : Nat) (s : String) : Option Int :=
  match pyStripChars s.toList with
  | '+' :: rest => (pyIntAbs base rest).map (fun n => (n : Int))
  | '-' :: rest => (pyIntAbs base rest).map (fun n => -(n : Int))
  | rest => (pyIntAbs base rest).map (fun n => (n : Int))

/-! ## The generator state (`CoverArtGenerator.__init__`) -/

/-- A pixel bounding box `(x1, y1, x2, y2)` as returned by `get_tile_position`
and `calculate_bounding_box`.  As rendered by `load_images` a box covers the
half-open rectangle `[x1, x2) × [y1, y2)` (the emitted width is `x2 - x1` and
the height `y2 - y1`). -/
structure Box where
  x1 : Int
  y1 : Int
  x2 : Int
  y2 : Int
  deriving DecidableEq, Repr

/-- Membership of a pixel in the half-open rectangle a `Box` covers when
rendered with width `x2 - x1` and height `y2 - y1`. -/
def inBox (b : Box) (p : Int × Int) : Prop :=
  b.x1 ≤ p.1 ∧ p.1 < b.x2 ∧ b.y1 ≤ p.2 ∧ p.2 < b.y2

instance (b : Box) (p : Int × Int) : Decidable (inBox b p) := by
  unfold inBox; infer_instance

/-- Operating limits of `CoverArtGenerator`. -/
def MIN_IMAGE_SIZE : Int := 128
def MAX_IMAGE_SIZE : Int := 1024

/-- `CoverArtGenerator.CAA_MISSING_IMAGE`. -/
def CAA_MISSING_IMAGE : String :=
  "https://listenbrainz.org/static/img/cover-art-placeholder.jpg"

/-- The fields of `CoverArtGenerator` set by `__init__`. -/
structure CoverArtGenerator where
  dimension : Int
  image_size : Int
  background : String
  skip_missing : Bool
  show_caa_image_for_missing_covers : Bool
  tile_size : Int
  deriving Repr

/-- `CoverArtGenerator.__init__`: stores the parameters and computes
`tile_size = image_size // dimension` (Python floor division). -/
def mkCoverArtGenerator (dimension image_size : Int) (background : String)
    (skip_missing show_caa_image_for_missing_covers : Bool) : CoverArtGenerator :=
  { dimension := dimension
    image_size := image_size
    background := background
    skip_missing := skip_missing
    show_caa_image_for_missing_covers := show_caa_image_for_missing_covers
    tile_size := image_size / dimension }

/-! ## `GRID_TILE_DESIGNS`

The static layout catalog: dimension → list of layout variants, each variant a
list of cell addresses (comma-separated cell indices). -/

def GRID_TILE_DESIGNS : List (Int × List (List String)) :=
  [ (2, [ ["0", "1", "2", "3"] ]),
    (3, [ ["0", "1", "2", "3", "4", "5", "6", "7", "8"],
          ["0,1,3,4", "2", "5", "6", "7", "8"],
          ["0", "1", "2", "3", "4,5,7,8", "6"] ]),
    (4, [ ["0", "1", "2", "3", "4", "5", "6", "7", "8", "9", "10", "11", "12", "13", "14", "15"],
          ["5,6,9,10", "0", "1", "2", "3", "4", "7", "8", "11", "12", "13", "14", "15"],
          ["0,1,4,5", "10,11,14,15", "2", "3", "6", "7", "8", "9", "12", "13"],
          ["0,1,2,4,5,6,8,9,10", "3", "7", "11", "12", "13", "14", "15"] ]),
    (5, [ ["0", "1", "2", "3", "4", "5", "6", "7", "8", "9", "10", "11", "12", "13",
           "14", "15", "16", "17", "18", "19", "20", "21", "22", "23", "24"],
          ["0,1,2,5,6,7,10,11,12", "3,4,8,9", "15,16,20,21", "13", "14", "17", "18", "19", "22", "23", "24"] ]) ]

/-- Python dict access `GRID_TILE_DESIGNS[dimension]` (as an `Option`, a
missing key being a `KeyError`). -/
def gridDesignsFor (dimension : Int) : Option (List (List String)) :=
  GRID_TILE_DESIGNS.lookup dimension

/-! ## `parse_color_code` -/

/-- `parse_color_code(color_code)`: `None` unless the string starts with `#`;
then parse the three character slices `[1:3]`, `[3:5]`, `[5:7]` as base-16
integers (each failing parse yields `None`). -/
def parse_color_code (color_code : String) : Option (Int × Int × Int) :=
  if ¬ pyStartsWithHash color_code then none
  else
    match pyInt 16 (pySlice color_code 1 3) with
    | none => none
    | some r =>
      match pyInt 16 (pySlice color_code 3 5) with
      | none => none
      | some g =>
        match pyInt 16 (pySlice color_code 5 7) with
        | none => none
        | some b => some (r, g, b)

/-! ## `validate_parameters` -/

/-- `validate_parameters()`: first failing check wins; returns `None` when the
parameters are valid.  The Python `isinstance(skip_missing, bool)` check is
vacuously true in this typed embedding (`skip_missing : Bool`). -/
def validate_parameters (g : CoverArtGenerator) : Option String :=
  if ¬ (g.dimension = 2 ∨ g.dimension = 3 ∨ g.dimension = 4 ∨ g.dimension = 5) then
    some "dimmension must be between 2 and 5, inclusive."
  else
    let bg_color := parse_color_code g.background
    if ¬ (g.background = "transparent" ∨ g.background = "white" ∨ g.background = "black") ∧
        bg_color = none then
      some ("background must be one of transparent, white, black or a color code #rrggbb, not "
        ++ g.background)
    else if g.image_size < MIN_IMAGE_SIZE ∨ g.image_size > MAX_IMAGE_SIZE then
      some "image size must be between 128 and 1024, inclusive."
    else
      none

/-! ## `get_tile_position` -/

/-- `get_tile_position(tile)`: `(None, None)` (modelled `none`) when the tile
index is out of range, otherwise the box of the cell, with the far edge of the
last column/row clamped to `image_size - 1`. -/
def get_tile_position (g : CoverArtGenerator) (tile : Int) : Option Box :=
  if tile < 0 ∨ tile ≥ g.dimension * g.dimension then none
  else
    let x := tile % g.dimension
    let y := tile / g.dimension
    let x1 := x * g.tile_size
    let y1 := y * g.tile_size
    let x2 := (x + 1) * g.tile_size
    let y2 := (y + 1) * g.tile_size
    let x2 := if x = g.dimension - 1 then g.image_size - 1 else x2
    let y2 := if y = g.dimension - 1 then g.image_size - 1 else y2
    some ⟨x1, y1, x2, y2⟩

/-! ## `calculate_bounding_box` -/

/-- The accumulation loop of `calculate_bounding_box` for `i ≥ 1`: each later
tile's box updates the running bounds by the source's chain of `min`/`max`
assignments (`bb_x1` is min'ed with both `x1` and `x2`, `bb_x2` max'ed with
both, and likewise on y). -/
def bbLoop (g : CoverArtGenerator) (bb : Box) : List Int → Option Box
  | [] => some bb
  | t :: ts =>
    match get_tile_position g t with
    | none => none
    | some b =>
      bbLoop g ⟨min (min bb.x1 b.x1) b.x2, min (min bb.y1 b.y1) b.y2,
                max (max bb.x2 b.x1) b.x2, max (max bb.y2 b.y1) b.y2⟩ ts

/-- `calculate_bounding_box(address)`: split the address on commas, parse each
token with `int(token.strip())`, fail (`(None, None, None, None)`, modelled
`none`) on a parse failure or an out-of-range index, then fold the boxes of
the member cells.  (`splitCommaChars` never returns an empty token list, and
the range check guarantees `get_tile_position` succeeds, so the `none` arms
inside are unreachable.) -/
def calculate_bounding_box (g : CoverArtGenerator) (address : String) : Option Box :=
  match (pySplitComma address).mapM (fun t => pyInt 10 (pyStrip t)) with
  | none => none
  | some tiles =>
    if tiles.all (fun t => decide (0 ≤ t) && decide (t < g.dimension * g.dimension)) then
      match tiles with
      | [] => none
      | t0 :: rest =>
        match get_tile_position g t0 with
        | none => none
        | some bb0 => bbLoop g bb0 rest
    else none

/-! ## `resolve_cover_art` and the image-loading loop of `load_images` -/

/-- `resolve_cover_art(release_mbid)`: `None` for a `None` mbid, otherwise ask
the external `get_caa_id` collaborator (the database query, modelled as an
opaque function) and build the archive.org URL. -/
def resolve_cover_art (get_caa_id : String → Option Int) (release_mbid : Option String) :
    Option String :=
  match release_mbid with
  | none => none
  | some mbid =>
    match get_caa_id mbid with
    | none => none
    | some caa_id =>
      some ("https://archive.org/download/mbid-" ++ mbid ++ "/mbid-" ++ mbid ++ "-"
        ++ toString caa_id ++ "_thumb500.jpg")

/-- One placement emitted by `load_images`:
`{"x": x1, "y": y1, "width": x2 - x1, "height": y2 - y1, "url": url}`. -/
structure Placement where
  x : Int
  y : Int
  width : Int
  height : Int
  url : String
  deriving DecidableEq, Repr

/-- The inner `while True` loop of `load_images` for one tile box: pop mbids
from the front of the queue until a URL is decided.  Returns the chosen URL
(`none` when the tile is left without one) and the remaining queue.
An empty queue is Python's `IndexError` arm; a failed resolution either skips
to the next mbid (`skip_missing`) or falls back to the placeholder policy. -/
def tileUrl (g : CoverArtGenerator) (get_caa_id : String → Option Int) :
    List (Option String) → Option String × List (Option String)
  | [] =>
    (if g.show_caa_image_for_missing_covers then some CAA_MISSING_IMAGE else none, [])
  | m :: rest =>
    match resolve_cover_art get_caa_id m with
    | some url => (some url, rest)
    | none =>
      if g.skip_missing then tileUrl g get_caa_id rest
      else
        (if g.show_caa_image_for_missing_covers then some CAA_MISSING_IMAGE else none, rest)

/-- The outer `for` loop of `load_images`: one `tileUrl` round per tile box, a
placement appended only when a URL was chosen.  Also returns the final state
of the (destructively consumed) mbid queue. -/
def imagesLoop (g : CoverArtGenerator) (get_caa_id : String → Option Int) :
    List Box → List (Option String) → List Placement × List (Option String)
  | [], q => ([], q)
  | b :: bs, q =>
    let r := tileUrl g get_caa_id q
    let rest := imagesLoop g get_caa_id bs r.2
    (match r.1 with
     | some url => ⟨b.x1, b.y1, b.x2 - b.x1, b.y2 - b.y1, url⟩ :: rest.1
     | none => rest.1, rest.2)

/-- The exceptions `load_images` can raise. -/
inductive LoadError where
  | badRequest (msg : String)
  | keyError
  | indexError
  deriving DecidableEq, Repr

/-- The address-resolution loop of `load_images`: the first invalid address
raises `BadRequest(f"Invalid address {addr} specified.")`. -/
def resolveAddrs (g : CoverArtGenerator) : List String → Except LoadError (List Box)
  | [] => .ok []
  | a :: rest =>
    match calculate_bounding_box g a with
    | none => .error (.badRequest ("Invalid address " ++ a ++ " specified."))
    | some b =>
      match resolveAddrs g rest with
      | .error e => .error e
      | .ok bs => .ok (b :: bs)

/-- The `if layout is not None / elif tile_addrs is None / else` address
choice at the top of `load_images`: an explicit `layout` (or the default
layout `0`) indexes the catalog — a bad dimension key is a `KeyError`, a bad
index an `IndexError` — while explicit `tile_addrs` are used as given. -/
def chooseAddrs (g : CoverArtGenerator) (tile_addrs : Option (List String))
    (layout : Option Nat) : Except LoadError (List String) :=
  match layout with
  | some l =>
    match gridDesignsFor g.dimension with
    | none => .error .keyError
    | some designs =>
      match designs[l]? with
      | none => .error .indexError
      | some a => .ok a
  | none =>
    match tile_addrs with
    | none =>
      match gridDesignsFor g.dimension with
      | none => .error .keyError
      | some designs =>
        match designs[0]? with
        | none => .error .indexError
        | some a => .ok a
    | some ta => .ok ta

/-- `load_images(mbids, tile_addrs, layout)`: choose the address list,
resolve every address to a box, then run the image loop.  Returns the
placements together with the final state of the caller's mbid list (Python
pops the caller's list in place). -/
def load_images (g : CoverArtGenerator) (get_caa_id : String → Option Int)
    (mbids : List (Option String)) (tile_addrs : Option (List String))
    (layout : Option Nat) : Except LoadError (List Placement × List (Option String)) :=
  match chooseAddrs g tile_addrs layout with
  | .error e => .error e
  | .ok addrs =>
    match resolveAddrs g addrs with
    | .error e => .error e
    | .ok tiles => .ok (imagesLoop g get_caa_id tiles mbids)

/-! ## The `/coverart/grid-stats/...` route's validation sequence

`cover_art_grid_stats` builds a generator with the default background, runs
`validate_parameters`, and then probes `GRID_TILE_DESIGNS[dimension][layout]`,
turning an `IndexError` into the distinct message
`f"layout {layout} is not available for dimension {dimension}."`. -/
def layoutUnavailableMsg (dimension : Int) (layout : Nat) : String :=
  "layout " ++ toString layout ++ " is not available for dimension "
    ++ toString dimension ++ "."

def cover_art_grid_stats_validate (dimension : Int) (layout : Nat) (image_size : Int) :
    Option String :=
  let cac := mkCoverArtGenerator dimension image_size "#FFFFFF" true true
  match validate_parameters cac with
  | some err => some err
  | none =>
    match gridDesignsFor dimension with
    | none => some (layoutUnavailableMsg dimension layout)
    | some designs =>
      match designs[layout]? with
      | none => some (layoutUnavailableMsg dimension layout)
      | some _ => none

/-! ## The Asset Resolver's retry loop

Modelled from the spec: the remote-fetch retry loop of the Asset Resolver &
Cache (spec §4.4) is not part of `src/` — `resolve_cover_art` there only
builds the remote URL; the HTTP GET, status handling, backoff sleeps and
on-disk cache live outside the given sources.  Per the spec: `200` streams the
body and succeeds; `403`/`404` fail permanently with `NotFound`; `429`/`503`
are transient — sleep the current backoff (starting at 2 seconds, doubling on
each retry) and retry the same request, aborting with `Timeout` once the
backoff duration would exceed 100 seconds; any other status fails with
`UnexpectedStatus`. -/

inductive FetchResult where
  | ok
  | notFound
  | timeout
  | unexpectedStatus (code : Nat)
  deriving DecidableEq, Repr

/-- The retry loop, driven by the sequence of HTTP statuses the remote host
returns (`status n` is the status of the `n`-th attempt).  `backoff` is the
next sleep duration; the loop aborts with `Timeout` once it would exceed 100
seconds.  Well-founded recursion on `101 - backoff` proves the loop total:
the backoff strictly grows, so the ceiling is always reached. -/
def fetchWithRetries (status : Nat → Nat) (attempt : Nat) (backoff : Nat)
    (hb : 0 < backoff) : FetchResult :=
  if h : backoff > 100 then .timeout
  else
    let st := status attempt
    if st = 200 then .ok
    else if st = 403 ∨ st = 404 then .notFound
    else if st = 429 ∨ st = 503 then
      fetchWithRetries status (attempt + 1) (backoff * 2) (by omega)
    else .unexpectedStatus st
  termination_by 101 - backoff
  decreasing_by
    omega

/-- The resolver's remote fetch: the backoff starts at 2 seconds. -/
def resolveRemote (status : Nat → Nat) : FetchResult :=
  fetchWithRetries status 0 2 (by omega)

/-! ## The layout-catalog coverage checker (for the design-time invariant) -/

/-- All cell indices of one layout variant, each address split on commas and
parsed like `calculate_bounding_box` parses it. -/
def variantCells (v : List String) : Option (List Int) :=
  (v.flatMap (fun a => pySplitComma a)).mapM (fun t => pyInt 10 (pyStrip t))

/-- One layout variant covers the `dimension × dimension` grid exactly once:
its addresses parse, and every cell index in `[0, dimension²)` occurs in
exactly one address (counting multiplicity), with no others. -/
def checkVariant (dimension : Int) (v : List String) : Bool :=
  match variantCells v with
  | none => false
  | some cells =>
    decide (cells.length = dimension * dimension) &&
      (List.range (dimension * dimension).toNat).all
        (fun i => cells.count (i : Int) = 1)

/-- Every variant of every dimension in the catalog covers its grid exactly
once. -/
def checkCatalog : Bool :=
  GRID_TILE_DESIGNS.all (fun e => e.2.all (checkVariant e.1))

/-- The per-box outcomes of the image loop: the URL choice (`none` = tile
left absent) each successive box receives from its `tileUrl` round. -/
def tileOutcomes (g : CoverArtGenerator) (get_caa_id : String → Option Int) :
    List Box → List (Option String) → List (Option String)
  | [], _ => []
  | _ :: bs, q => (tileUrl g get_caa_id q).1 :: tileOutcomes g get_caa_id bs (tileUrl g get_caa_id q).2

/-! ## Concrete fixtures used by witnesses and counterexamples -/

/-- A 2×2, 750px generator with the default policies (`skip_missing = True`,
`show_caa_image_for_missing_covers = True`). -/
def gridW : CoverArtGenerator := mkCoverArtGenerator 2 750 "#FFFFFF" true true

/-- A 2×2, 750px generator with `skip_missing = False` and
`show_caa_image_for_missing_covers = False`. -/
def gridNoFallback : CoverArtGenerator := mkCoverArtGenerator 2 750 "#FFFFFF" false false

/-- A lookup collaborator that resolves only the mbid `"good"`. -/
def caaW : String → Option Int := fun s => if s = "good" then some 7 else none

/-- The URL `resolve_cover_art` builds for mbid `"good"` under `caaW`. -/
def urlW : String := "https://archive.org/download/mbid-good/mbid-good-7_thumb500.jpg"

/-! ## Shared helper lemmas -/

/-- A config whose dimension, background and image size pass their checks is
accepted by `validate_parameters` (the `skip_missing` type check is vacuous in
the typed embedding): there is no further check, in particular none on the
missing-art setting. -/
lemma validate_parameters_eq_none (dimension image_size : Int) (background : String)
    (skip_missing show_caa : Bool)
    (hdim : dimension = 2 ∨ dimension = 3 ∨ dimension = 4 ∨ dimension = 5)
    (hbg : background = "transparent" ∨ background = "white" ∨ background = "black" ∨
      parse_color_code background ≠ none)
    (hsize : MIN_IMAGE_SIZE ≤ image_size ∧ image_size ≤ MAX_IMAGE_SIZE) :
    validate_parameters
      (mkCoverArtGenerator dimension image_size background skip_missing show_caa) = none := by
  simp only [validate_parameters, mkCoverArtGenerator, MIN_IMAGE_SIZE, MAX_IMAGE_SIZE]
  rw [if_neg (not_not_intro hdim)]
  rw [if_neg (by rintro ⟨hn, hp⟩; rcases hbg with h | h | h | h <;> simp_all)]
  rw [if_neg (by simp only [MIN_IMAGE_SIZE, MAX_IMAGE_SIZE] at hsize; omega)]

/-- Unsupported dimensions always produce the fixed dimension error message,
whatever the other parameters are. -/
lemma validate_parameters_bad_dimension (dimension image_size : Int) (background : String)
    (skip_missing show_caa : Bool)
    (hdim : ¬ (dimension = 2 ∨ dimension = 3 ∨ dimension = 4 ∨ dimension = 5)) :
    validate_parameters
      (mkCoverArtGenerator dimension image_size background skip_missing show_caa) =
      some "dimmension must be between 2 and 5, inclusive." := by
  simp only [validate_parameters, mkCoverArtGenerator]
  rw [if_pos hdim]

/-! ## Claim C9: the layout catalog covers every grid exactly once -/

/-- C9: for every dimension key in `GRID_TILE_DESIGNS` and every layout
variant listed under it, the cell addresses of that variant cover the cell
indices `[0, dimension²)` exactly once: the addresses all parse, every index
appears in exactly one address, with no overlaps and no gaps. -/
theorem c9_catalog_variants_cover_exactly_once :
    ∀ entry ∈ GRID_TILE_DESIGNS, ∀ variant ∈ entry.2,
      checkVariant entry.1 variant = true := by decide

/-- Witness for C9: the second 3×3 variant (with the merged `"0,1,3,4"`
tile) covers the nine cells exactly once. -/
theorem c9_witness :
    checkVariant 3 ["0,1,3,4", "2", "5", "6", "7", "8"] = true :=
  c9_catalog_variants_cover_exactly_once
    (3, [ ["0", "1", "2", "3", "4", "5", "6", "7", "8"],
          ["0,1,3,4", "2", "5", "6", "7", "8"],
          ["0", "1", "2", "3", "4,5,7,8", "6"] ])
    (by decide) ["0,1,3,4", "2", "5", "6", "7", "8"] (by decide)

/-! ## Claim C5: `parse_color_code` and incorrect lengths -/

/-- C5 (code bug): `parse_color_code` does keep the true part of the claim —
a non-hex 2-digit group is rejected, as are strings of length at most 5 whose
third slice is empty — but it does not reject all strings of incorrect
length: Python slicing silently truncates, so the 8-character `"#1234567"`
is accepted (trailing `7` ignored) and the 6-character `"#12345"` is accepted
with its third group read as the single digit `5`. -/
theorem c5_incorrect_lengths_accepted :
    parse_color_code "#1234567" = some (18, 52, 86) ∧
    parse_color_code "#12345" = some (18, 52, 5) ∧
    parse_color_code "#12G456" = none ∧
    parse_color_code "#1234" = none := by decide

/-! ## Claim C6: no missing-art-policy check in `validate_parameters` -/

/-- C6 (counterexample): a config whose dimension, background, image size and
skip flag are all valid is accepted by `validate_parameters` outright — it
returns `none`, not a missing-art-policy error, whichever way the missing-art
setting (the boolean `show_caa_image_for_missing_covers`) is set.  There is no
missing-art-policy check to fail. -/
theorem c6_counterexample_no_policy_error :
    validate_parameters (mkCoverArtGenerator 3 750 "#FFFFFF" true true) = none ∧
    validate_parameters (mkCoverArtGenerator 3 750 "#FFFFFF" true false) = none := by
  exact ⟨by decide, by decide⟩

/-- C6 (amended): `validate_parameters` checks only dimension, background,
image size and the (vacuous) type of `skip_missing`; the code has no
`missing_art_policy` field — its missing-art setting is the unvalidated
boolean `show_caa_image_for_missing_covers` — so every config that passes
those checks is accepted with no error, regardless of that setting. -/
theorem c6_amended_validate_ignores_missing_art_setting
    (dimension image_size : Int) (background : String) (skip_missing show_caa : Bool)
    (hdim : dimension = 2 ∨ dimension = 3 ∨ dimension = 4 ∨ dimension = 5)
    (hbg : background = "transparent" ∨ background = "white" ∨ background = "black" ∨
      parse_color_code background ≠ none)
    (hsize : MIN_IMAGE_SIZE ≤ image_size ∧ image_size ≤ MAX_IMAGE_SIZE) :
    validate_parameters
      (mkCoverArtGenerator dimension image_size background skip_missing show_caa) = none :=
  validate_parameters_eq_none dimension image_size background skip_missing show_caa
    hdim hbg hsize

/-- Witness for C6 (amended) at a concrete valid config. -/
theorem c6_amended_witness :
    validate_parameters (mkCoverArtGenerator 5 1024 "black" false false) = none :=
  c6_amended_validate_ignores_missing_art_setting 5 1024 "black" false false
    (by decide) (by decide) (by decide)

/-! ## Claim C8: backoff termination of the asset resolver's retry loop -/

/-- The retry loop returns `Timeout` whenever every attempt draws a transient
status, for any positive backoff: the backoff doubles until it crosses the
100-second ceiling. -/
lemma fetchWithRetries_transient_timeout (status : Nat → Nat)
    (hs : ∀ n, status n = 429 ∨ status n = 503) :
    ∀ fuel backoff, ∀ hb : 0 < backoff, ∀ attempt, 101 - backoff ≤ fuel →
      fetchWithRetries status attempt backoff hb = .timeout := by
  intro fuel
  induction fuel with
  | zero =>
    intro b hb a hle
    rw [fetchWithRetries]
    rw [dif_pos (by omega)]
  | succ n ih =>
    intro b hb a hle
    rw [fetchWithRetries]
    by_cases h : b > 100
    · rw [dif_pos h]
    · rw [dif_neg h]
      have htr : (status a = 200) = False := by
        rcases hs a with h | h <;> simp [h]
      have htr2 : (status a = 403 ∨ status a = 404) = False := by
        rcases hs a with h | h <;> simp [h]
      have htr3 : (status a = 429 ∨ status a = 503) = True := by
        rcases hs a with h | h <;> simp [h]
      simp only [htr, htr2, htr3, if_false, if_true]
      exact ih (b * 2) (by omega) (a + 1) (by omega)

/-- C8: a fetch whose every attempt returns a transient status (`429` or
`503`) keeps doubling the backoff from its 2-second start and fails with
`Timeout` as soon as the backoff would exceed 100 seconds — the retry loop
terminates (its totality is established by the well-founded recursion of
`fetchWithRetries` on `101 - backoff`). -/
theorem c8_transient_always_times_out (status : Nat → Nat)
    (hs : ∀ n, status n = 429 ∨ status n = 503) :
    resolveRemote status = .timeout :=
  fetchWithRetries_transient_timeout status hs 99 2 (by omega) 0 (by omega)

/-- Witness for C8: a host that always answers `429`. -/
theorem c8_witness : resolveRemote (fun _ => 429) = .timeout :=
  c8_transient_always_times_out (fun _ => 429) (fun _ => Or.inl rfl)

/-! ## Claim C4: `skip_missing` retries the same box with the next mbid -/

/-- With `skip_missing` set, one tile round discards every mbid that fails to
resolve and takes the URL of the first mbid that resolves, leaving exactly
the queue after it. -/
lemma tileUrl_skips_failures (g : CoverArtGenerator) (get_caa_id : String → Option Int)
    (hskip : g.skip_missing = true) :
    ∀ (q1 : List (Option String)) (m : Option String) (rest : List (Option String)) (u : String),
      (∀ x ∈ q1, resolve_cover_art get_caa_id x = none) →
      resolve_cover_art get_caa_id m = some u →
      tileUrl g get_caa_id (q1 ++ m :: rest) = (some u, rest) := by
  intro q1
  induction q1 with
  | nil =>
    intro m rest u hfail hok
    simp [tileUrl, hok]
  | cons x q ih =>
    intro m rest u hfail hok
    have hx : resolve_cover_art get_caa_id x = none := hfail x (by simp)
    simp only [List.cons_append, tileUrl, hx, hskip, if_true]
    exact ih m rest u (fun y hy => hfail y (by simp [hy])) hok

/-- C4: when `skip_missing` is true, the assembler discards each identifier of
the queue that fails to resolve and retries the same box with the next one
until one resolves; the tile then carries the first resolvable identifier's
URL and the queue continues after it, so a single tile box against such a
queue yields exactly one placement. -/
theorem c4_skip_missing_discards_and_retries (g : CoverArtGenerator)
    (get_caa_id : String → Option Int) (hskip : g.skip_missing = true)
    (q1 : List (Option String)) (m : Option String) (rest : List (Option String)) (u : String)
    (hfail : ∀ x ∈ q1, resolve_cover_art get_caa_id x = none)
    (hok : resolve_cover_art get_caa_id m = some u) :
    tileUrl g get_caa_id (q1 ++ m :: rest) = (some u, rest) ∧
    ∀ b : Box, imagesLoop g get_caa_id [b] (q1 ++ m :: rest) =
      ([⟨b.x1, b.y1, b.x2 - b.x1, b.y2 - b.y1, u⟩], rest) := by
  have h1 := tileUrl_skips_failures g get_caa_id hskip q1 m rest u hfail hok
  refine ⟨h1, fun b => ?_⟩
  simp [imagesLoop, h1]

/-- Witness for C4: two unresolvable mbids followed by a resolvable one,
against the single tile box `(0, 0, 375, 375)`: one placement, using the
resolvable identifier's URL, the first two discarded. -/
theorem c4_witness :
    tileUrl gridW caaW ([some "bad1", some "bad2"] ++ some "good" :: []) = (some urlW, []) ∧
    imagesLoop gridW caaW [⟨0, 0, 375, 375⟩] ([some "bad1", some "bad2"] ++ some "good" :: []) =
      ([⟨0, 0, 375, 375, urlW⟩], []) := by
  have h := c4_skip_missing_discards_and_retries gridW caaW rfl
    [some "bad1", some "bad2"] (some "good") [] urlW (by decide) (by decide)
  exact ⟨h.1, h.2 ⟨0, 0, 375, 375⟩⟩

/-! ## Claim C10: the mbid queue is consumed destructively from the front -/

/-- One tile round pops some number of elements off the front of the queue. -/
lemma tileUrl_queue_suffix (g : CoverArtGenerator) (get_caa_id : String → Option Int) :
    ∀ q : List (Option String), ∃ k, k ≤ q.length ∧ (tileUrl g get_caa_id q).2 = q.drop k := by
  intro q
  induction q with
  | nil => exact ⟨0, by simp, by simp [tileUrl]⟩
  | cons m rest ih =>
    cases hres : resolve_cover_art get_caa_id m with
    | some u => exact ⟨1, by simp, by simp [tileUrl, hres]⟩
    | none =>
      by_cases hskip : g.skip_missing = true
      · obtain ⟨k, hk, heq⟩ := ih
        exact ⟨k + 1, by simp; omega, by simp [tileUrl, hres, hskip, heq]⟩
      · exact ⟨1, by simp, by simp [tileUrl, hres, hskip]⟩

/-- The whole image loop leaves the queue a suffix of the original. -/
lemma imagesLoop_queue_suffix (g : CoverArtGenerator) (get_caa_id : String → Option Int) :
    ∀ (tiles : List Box) (q : List (Option String)),
      ∃ n, n ≤ q.length ∧ (imagesLoop g get_caa_id tiles q).2 = q.drop n := by
  intro tiles
  induction tiles with
  | nil => intro q; exact ⟨0, by simp, by simp [imagesLoop]⟩
  | cons b bs ih =>
    intro q
    obtain ⟨k, hk, hk2⟩ := tileUrl_queue_suffix g get_caa_id q
    obtain ⟨n, hn, hn2⟩ := ih ((tileUrl g get_caa_id q).2)
    rw [hk2] at hn2 hn
    simp only [List.length_drop] at hn
    refine ⟨k + n, by omega, ?_⟩
    simp only [imagesLoop]
    rw [hk2, hn2, List.drop_drop]

/-- C10: `load_images` consumes the caller's mbid list destructively from the
front: whenever it returns, the caller's list (modelled by the returned final
queue) is exactly the original list with its consumed front prefix removed —
no consumed identifier (resolved, skipped, or replaced by a fallback) is still
in it. -/
theorem c10_mbids_consumed_from_front (g : CoverArtGenerator)
    (get_caa_id : String → Option Int) (mbids : List (Option String))
    (tile_addrs : Option (List String)) (layout : Option Nat)
    (imgs : List Placement) (qf : List (Option String))
    (h : load_images g get_caa_id mbids tile_addrs layout = .ok (imgs, qf)) :
    ∃ n, n ≤ mbids.length ∧ qf = mbids.drop n := by
  unfold load_images at h
  split at h
  · exact absurd h (by simp)
  · split at h
    · exact absurd h (by simp)
    · rename_i tiles hR
      obtain ⟨n, hn, hn2⟩ := imagesLoop_queue_suffix g get_caa_id tiles mbids
      have he : imagesLoop g get_caa_id tiles mbids = (imgs, qf) := by
        injection h
      rw [he] at hn2
      exact ⟨n, hn, hn2⟩

/-- Witness for C10: a single resolvable mbid against a single tile, fully
consumed. -/
theorem c10_witness :
    ∃ n, n ≤ ([some "good"] : List (Option String)).length ∧
      ([] : List (Option String)) = ([some "good"] : List (Option String)).drop n :=
  c10_mbids_consumed_from_front gridW caaW [some "good"] (some ["0"]) none
    [⟨0, 0, 375, 375, urlW⟩] [] rfl

/-! ## Claim C3: placement count versus tile-box count -/

/-- C3 (counterexample): with `skip_missing = False` and
`show_caa_image_for_missing_covers = False`, a single tile box against the
queue `[bad1, good]` yields zero placements — the box is left absent even
though its candidates were not exhausted: the very next identifier in the
queue (still there after the call) resolves. -/
theorem c3_counterexample_absent_without_exhaustion :
    load_images gridNoFallback caaW [some "bad1", some "good"] (some ["0"]) none =
      .ok ([], [some "good"]) ∧
    resolve_cover_art caaW (some "good") = some urlW := ⟨rfl, rfl⟩

/-- A tile round only ends URL-less when the placeholder is disabled. -/
lemma tileUrl_none_show_false (g : CoverArtGenerator) (get_caa_id : String → Option Int) :
    ∀ q : List (Option String), (tileUrl g get_caa_id q).1 = none →
      g.show_caa_image_for_missing_covers = false := by
  intro q
  induction q with
  | nil =>
    cases hsh : g.show_caa_image_for_missing_covers <;> simp [tileUrl, hsh]
  | cons m rest ih =>
    intro h
    cases hres : resolve_cover_art get_caa_id m with
    | some u => simp [tileUrl, hres] at h
    | none =>
      by_cases hskip : g.skip_missing = true
      · exact ih (by simpa [tileUrl, hres, hskip] using h)
      · cases hsh : g.show_caa_image_for_missing_covers
        · rfl
        · simp [tileUrl, hres, hskip, hsh] at h

/-- Exactly when a tile round ends URL-less: the placeholder is disabled, and
either `skip_missing` exhausted the whole queue without a resolvable
identifier, or `skip_missing` is off and the round's popped identifier failed
(or the queue was already empty). -/
lemma tileUrl_none_iff (g : CoverArtGenerator) (get_caa_id : String → Option Int) :
    ∀ q : List (Option String), (tileUrl g get_caa_id q).1 = none ↔
      g.show_caa_image_for_missing_covers = false ∧
        ((g.skip_missing = true ∧ ∀ m ∈ q, resolve_cover_art get_caa_id m = none) ∨
         (g.skip_missing = false ∧
           (q = [] ∨ ∃ m r, q = m :: r ∧ resolve_cover_art get_caa_id m = none))) := by
  intro q
  induction q with
  | nil =>
    cases hsh : g.show_caa_image_for_missing_covers <;>
      cases hskip : g.skip_missing <;> simp [tileUrl, hsh, hskip]
  | cons m rest ih =>
    cases hres : resolve_cover_art get_caa_id m with
    | some u =>
      simp only [tileUrl, hres]
      constructor
      · intro h; simp at h
      · rintro ⟨hsh, ⟨hskip, hall⟩ | ⟨hskip, hcase⟩⟩
        · have := hall m (by simp); simp [hres] at this
        · rcases hcase with hnil | ⟨m0, r0, heq, hm0⟩
          · simp at hnil
          · rw [List.cons.injEq] at heq
            rw [← heq.1, hres] at hm0
            simp at hm0
    | none =>
      by_cases hskip : g.skip_missing = true
      · simp only [tileUrl, hres, hskip, if_true]
        rw [ih]
        simp [hskip, hres, List.forall_mem_cons]
      · have hskip' : g.skip_missing = false := by
          revert hskip; cases g.skip_missing <;> simp
        cases hsh : g.show_caa_image_for_missing_covers <;>
          simp [tileUrl, hres, hskip', hsh]

/-- Placements plus URL-less tile rounds account for every tile box. -/
lemma imagesLoop_length_add_none_count (g : CoverArtGenerator)
    (get_caa_id : String → Option Int) :
    ∀ (tiles : List Box) (q : List (Option String)),
      (imagesLoop g get_caa_id tiles q).1.length +
        (tileOutcomes g get_caa_id tiles q).count none = tiles.length := by
  intro tiles
  induction tiles with
  | nil => intro q; simp [imagesLoop, tileOutcomes]
  | cons b bs ih =>
    intro q
    have ih2 := ih ((tileUrl g get_caa_id q).2)
    cases h : (tileUrl g get_caa_id q).1 with
    | some u =>
      simp only [imagesLoop, tileOutcomes, h]
      simp [List.count_cons]
      omega
    | none =>
      simp only [imagesLoop, tileOutcomes, h]
      simp [List.count_cons]
      omega

/-- With the placeholder enabled, no tile round is URL-less. -/
lemma tileOutcomes_no_none_of_show (g : CoverArtGenerator)
    (get_caa_id : String → Option Int)
    (hsh : g.show_caa_image_for_missing_covers = true) :
    ∀ (tiles : List Box) (q : List (Option String)),
      none ∉ tileOutcomes g get_caa_id tiles q := by
  intro tiles
  induction tiles with
  | nil => intro q; simp [tileOutcomes]
  | cons b bs ih =>
    intro q
    simp only [tileOutcomes, List.mem_cons]
    rintro (h | h)
    · have hf := tileUrl_none_show_false g get_caa_id q h.symm
      rw [hsh] at hf
      simp at hf
    · exact ih _ h

/-- C3 (amended): the placement list accounts for every tile box — its length
plus the number of URL-less boxes equals the tile-box count — and a box is
left absent exactly when the placeholder is forbidden
(`show_caa_image_for_missing_covers = False`) and either `skip_missing`
exhausted every remaining candidate identifier, or `skip_missing` is off and
the one identifier popped for that box failed to resolve (or the queue was
already empty).  In particular, whenever the placeholder is allowed, the
placement count equals the tile-box count. -/
theorem c3_amended_placement_count (g : CoverArtGenerator)
    (get_caa_id : String → Option Int) (tiles : List Box) (q : List (Option String)) :
    ((imagesLoop g get_caa_id tiles q).1.length +
        (tileOutcomes g get_caa_id tiles q).count none = tiles.length) ∧
    (g.show_caa_image_for_missing_covers = true →
      (imagesLoop g get_caa_id tiles q).1.length = tiles.length) ∧
    (∀ q' : List (Option String), (tileUrl g get_caa_id q').1 = none ↔
      g.show_caa_image_for_missing_covers = false ∧
        ((g.skip_missing = true ∧ ∀ m ∈ q', resolve_cover_art get_caa_id m = none) ∨
         (g.skip_missing = false ∧
           (q' = [] ∨ ∃ m r, q' = m :: r ∧ resolve_cover_art get_caa_id m = none)))) := by
  refine ⟨imagesLoop_length_add_none_count g get_caa_id tiles q, ?_,
    tileUrl_none_iff g get_caa_id⟩
  intro hsh
  have hcount : (tileOutcomes g get_caa_id tiles q).count none = 0 :=
    List.count_eq_zero.mpr (tileOutcomes_no_none_of_show g get_caa_id hsh tiles q)
  have := imagesLoop_length_add_none_count g get_caa_id tiles q
  omega

/-- Witness for C3 (amended), at the counterexample's own configuration. -/
theorem c3_amended_witness :
    ((imagesLoop gridNoFallback caaW [⟨0, 0, 375, 375⟩] [some "bad1", some "good"]).1.length +
        (tileOutcomes gridNoFallback caaW [⟨0, 0, 375, 375⟩]
          [some "bad1", some "good"]).count none = 1) ∧
    (gridNoFallback.show_caa_image_for_missing_covers = true →
      (imagesLoop gridNoFallback caaW [⟨0, 0, 375, 375⟩]
        [some "bad1", some "good"]).1.length = 1) ∧
    (∀ q' : List (Option String), (tileUrl gridNoFallback caaW q').1 = none ↔
      gridNoFallback.show_caa_image_for_missing_covers = false ∧
        ((gridNoFallback.skip_missing = true ∧
            ∀ m ∈ q', resolve_cover_art caaW m = none) ∨
         (gridNoFallback.skip_missing = false ∧
           (q' = [] ∨ ∃ m r, q' = m :: r ∧ resolve_cover_art caaW m = none)))) :=
  c3_amended_placement_count gridNoFallback caaW [⟨0, 0, 375, 375⟩] [some "bad1", some "good"]

/-! ## Claim C7: out-of-range layout selector is a distinct error -/

/-- The layout-unavailable message never coincides with the unsupported-
dimension message (they differ already in their first character). -/
lemma layoutMsg_ne_dimMsg (dimension : Int) (layout : Nat) :
    layoutUnavailableMsg dimension layout ≠
      "dimmension must be between 2 and 5, inclusive." := by
  intro h
  have hd := congrArg String.data h
  simp only [layoutUnavailableMsg, String.data_append] at hd
  simp only [List.cons_append] at hd
  injection hd with h1 _
  exact absurd h1 (by decide)

/-- C7: for a valid dimension and a valid image size, a layout selector that
does not index an existing catalog entry makes the grid-stats validation
sequence return the layout-unavailable error; an unsupported dimension always
yields the fixed dimension error instead, and the two error messages are
distinct. -/
theorem c7_bad_layout_distinct_error (dimension : Int) (layout : Nat) (image_size : Int)
    (hdim : dimension = 2 ∨ dimension = 3 ∨ dimension = 4 ∨ dimension = 5)
    (hsize : MIN_IMAGE_SIZE ≤ image_size ∧ image_size ≤ MAX_IMAGE_SIZE)
    (hlay : ((gridDesignsFor dimension).getD []).length ≤ layout) :
    cover_art_grid_stats_validate dimension layout image_size =
      some (layoutUnavailableMsg dimension layout) ∧
    (∀ d' size' bg sk sh, ¬ (d' = 2 ∨ d' = 3 ∨ d' = 4 ∨ d' = 5) →
      validate_parameters (mkCoverArtGenerator d' size' bg sk sh) =
        some "dimmension must be between 2 and 5, inclusive.") ∧
    layoutUnavailableMsg dimension layout ≠
      "dimmension must be between 2 and 5, inclusive." := by
  refine ⟨?_, fun d' size' bg sk sh h =>
    validate_parameters_bad_dimension d' size' bg sk sh h,
    layoutMsg_ne_dimMsg dimension layout⟩
  have hv := validate_parameters_eq_none dimension image_size "#FFFFFF" true true hdim
    (by right; right; right; decide) hsize
  simp only [cover_art_grid_stats_validate, hv]
  rcases hdim with h | h | h | h <;> subst h
  · have hg : gridDesignsFor 2 = some [["0", "1", "2", "3"]] := rfl
    rw [hg, Option.getD_some] at hlay
    simp [hg, List.getElem?_eq_none hlay]
  · have hg : gridDesignsFor 3 =
        some [["0", "1", "2", "3", "4", "5", "6", "7", "8"],
              ["0,1,3,4", "2", "5", "6", "7", "8"],
              ["0", "1", "2", "3", "4,5,7,8", "6"]] := rfl
    rw [hg, Option.getD_some] at hlay
    simp [hg, List.getElem?_eq_none hlay]
  · have hg : gridDesignsFor 4 =
        some [["0", "1", "2", "3", "4", "5", "6", "7", "8", "9", "10", "11", "12", "13",
               "14", "15"],
              ["5,6,9,10", "0", "1", "2", "3", "4", "7", "8", "11", "12", "13", "14", "15"],
              ["0,1,4,5", "10,11,14,15", "2", "3", "6", "7", "8", "9", "12", "13"],
              ["0,1,2,4,5,6,8,9,10", "3", "7", "11", "12", "13", "14", "15"]] := rfl
    rw [hg, Option.getD_some] at hlay
    simp [hg, List.getElem?_eq_none hlay]
  · have hg : gridDesignsFor 5 =
        some [["0", "1", "2", "3", "4", "5", "6", "7", "8", "9", "10", "11", "12", "13",
               "14", "15", "16", "17", "18", "19", "20", "21", "22", "23", "24"],
              ["0,1,2,5,6,7,10,11,12", "3,4,8,9", "15,16,20,21", "13", "14", "17", "18",
               "19", "22", "23", "24"]] := rfl
    rw [hg, Option.getD_some] at hlay
    simp [hg, List.getElem?_eq_none hlay]

/-- Witness for C7: dimension 3 (which has 3 layout variants) with layout 3. -/
theorem c7_witness :
    cover_art_grid_stats_validate 3 3 750 = some (layoutUnavailableMsg 3 3) ∧
    (∀ d' size' bg sk sh, ¬ (d' = 2 ∨ d' = 3 ∨ d' = 4 ∨ d' = 5) →
      validate_parameters (mkCoverArtGenerator d' size' bg sk sh) =
        some "dimmension must be between 2 and 5, inclusive.") ∧
    layoutUnavailableMsg 3 3 ≠ "dimmension must be between 2 and 5, inclusive." :=
  c7_bad_layout_distinct_error 3 3 750 (by decide) (by decide) (by decide)

/-! ## Tile-geometry helper lemmas (for C1 and C2)

Throughout, `ts = image_size / dimension` is the stored `tile_size`; for a
valid cell index `t` the column is `x = t % dimension` and the row
`y = t / dimension`, and the half-open x-extent of column `x` runs from
`x * ts` to `(x+1) * ts`, clamped to `image_size - 1` on the last column. -/

lemma tileSize_pos (d size : Int) (hd : 0 < d) (hds : d ≤ size) : 1 ≤ size / d := by
  rw [Int.le_ediv_iff_mul_le hd]
  omega

lemma clamp_le (d size : Int) (hd : 0 < d) (hds : d ≤ size) :
    (d - 1) * (size / d) ≤ size - 1 := by
  have h := Int.ediv_add_emod size d
  have hr : 0 ≤ size % d := Int.emod_nonneg size (by omega)
  have hts : 1 ≤ size / d := tileSize_pos d size hd hds
  have e : (d - 1) * (size / d) = d * (size / d) - size / d := by ring
  rw [e]
  linarith

/-- The box of a valid cell index, written out. -/
lemma get_tile_position_eq (g : CoverArtGenerator) (t : Int)
    (h0 : 0 ≤ t) (h1 : t < g.dimension * g.dimension) :
    get_tile_position g t = some ⟨(t % g.dimension) * g.tile_size,
      (t / g.dimension) * g.tile_size,
      if t % g.dimension = g.dimension - 1 then g.image_size - 1
        else (t % g.dimension + 1) * g.tile_size,
      if t / g.dimension = g.dimension - 1 then g.image_size - 1
        else (t / g.dimension + 1) * g.tile_size⟩ := by
  unfold get_tile_position
  rw [if_neg (by omega)]

/-- Every coordinate of `[0, size - 1)` lies in the extent of some column. -/
lemma axis_locate (d size ts p : Int) (hd : 2 ≤ d) (hts : 1 ≤ ts)
    (hp0 : 0 ≤ p) (hp1 : p < size - 1) :
    ∃ x, 0 ≤ x ∧ x ≤ d - 1 ∧ x * ts ≤ p ∧
      p < (if x = d - 1 then size - 1 else (x + 1) * ts) := by
  have hq := Int.ediv_add_emod p ts
  have hr0 : 0 ≤ p % ts := Int.emod_nonneg p (by omega)
  have hr1 : p % ts < ts := Int.emod_lt_of_pos p (by omega)
  have hq0 : 0 ≤ p / ts := Int.ediv_nonneg hp0 (by omega)
  by_cases hc : p / ts ≤ d - 2
  · refine ⟨p / ts, hq0, by omega, ?_, ?_⟩
    · have e : p / ts * ts = ts * (p / ts) := mul_comm _ _
      linarith
    · rw [if_neg (by omega)]
      have e : (p / ts + 1) * ts = ts * (p / ts) + ts := by ring
      linarith
  · push_neg at hc
    refine ⟨d - 1, by omega, le_refl _, ?_, ?_⟩
    · have h1 : (d - 1) * ts ≤ p / ts * ts :=
        mul_le_mul_of_nonneg_right (by omega) (by omega)
      have e : p / ts * ts = ts * (p / ts) := mul_comm _ _
      linarith
    · rw [if_pos rfl]
      exact hp1

/-- A coordinate inside a column's extent lies inside `[0, size - 1)`. -/
lemma axis_bounds (d size ts x p : Int) (hts : 1 ≤ ts)
    (hlast : (d - 1) * ts ≤ size - 1) (hx0 : 0 ≤ x) (hxd : x ≤ d - 1)
    (hin1 : x * ts ≤ p) (hin2 : p < (if x = d - 1 then size - 1 else (x + 1) * ts)) :
    0 ≤ p ∧ p < size - 1 := by
  constructor
  · have : 0 ≤ x * ts := mul_nonneg hx0 (by omega)
    linarith
  · by_cases h : x = d - 1
    · rw [if_pos h] at hin2
      exact hin2
    · rw [if_neg h] at hin2
      have : (x + 1) * ts ≤ (d - 1) * ts :=
        mul_le_mul_of_nonneg_right (by omega) (by omega)
      linarith

/-- The extents of two distinct columns are disjoint. -/
lemma axis_disjoint (d size ts x x' p : Int) (hts : 1 ≤ ts)
    (_hx0 : 0 ≤ x) (hlt : x < x') (hx'd : x' ≤ d - 1)
    (hin2 : p < (if x = d - 1 then size - 1 else (x + 1) * ts))
    (hin1' : x' * ts ≤ p) : False := by
  rw [if_neg (by omega)] at hin2
  have : (x + 1) * ts ≤ x' * ts :=
    mul_le_mul_of_nonneg_right (by omega) (by omega)
  linarith

/-! ## Claim C2: the tile boxes tile the square -/

/-- C2 (counterexample): on a 2×2 grid with `image_size = 750` the four boxes
are exactly the ones the claim lists — but, in the half-open reading the
renderer uses (width `x2 - x1`), the pixel `(749, 0)` lies inside
`[0, 750)²` and inside none of the four boxes: the clamp makes the far edge
fall one pixel short of `image_size`, so the boxes do not tile all of
`[0, image_size)²`. -/
theorem c2_counterexample_edge_pixel_uncovered :
    (get_tile_position gridW 0 = some ⟨0, 0, 375, 375⟩ ∧
     get_tile_position gridW 1 = some ⟨375, 0, 749, 375⟩ ∧
     get_tile_position gridW 2 = some ⟨0, 375, 375, 749⟩ ∧
     get_tile_position gridW 3 = some ⟨375, 375, 749, 749⟩) ∧
    ((0 : Int) ≤ 749 ∧ (749 : Int) < 750) ∧
    (¬ inBox ⟨0, 0, 375, 375⟩ (749, 0) ∧ ¬ inBox ⟨375, 0, 749, 375⟩ (749, 0) ∧
     ¬ inBox ⟨0, 375, 375, 749⟩ (749, 0) ∧ ¬ inBox ⟨375, 375, 749, 749⟩ (749, 0)) := by
  decide

/-- C2 (amended): for every dimension in {2,3,4,5} and every
`image_size ∈ [128, 1024]`, the boxes `get_tile_position` produces over all
cell indices in `[0, dimension²)` exist, are pairwise disjoint in the
half-open reading the renderer uses, and cover exactly the square
`[0, image_size - 1)²`: the tiling is gap-free and overlap-free up to the
clamped far edge `image_size - 1`, one pixel short of `image_size`. -/
theorem c2_amended_boxes_tile_clamped_square (dimension image_size : Int)
    (background : String) (skip_missing show_caa : Bool) (g : CoverArtGenerator)
    (hg : g = mkCoverArtGenerator dimension image_size background skip_missing show_caa)
    (hdim : dimension = 2 ∨ dimension = 3 ∨ dimension = 4 ∨ dimension = 5)
    (hsize : 128 ≤ image_size ∧ image_size ≤ 1024) :
    (∀ t, 0 ≤ t → t < dimension * dimension → ∃ b, get_tile_position g t = some b) ∧
    (∀ t t' b b' p, 0 ≤ t → t < dimension * dimension →
      0 ≤ t' → t' < dimension * dimension → t ≠ t' →
      get_tile_position g t = some b → get_tile_position g t' = some b' →
      ¬ (inBox b p ∧ inBox b' p)) ∧
    (∀ p : Int × Int,
      (0 ≤ p.1 ∧ p.1 < image_size - 1 ∧ 0 ≤ p.2 ∧ p.2 < image_size - 1) ↔
      ∃ t b, 0 ≤ t ∧ t < dimension * dimension ∧
        get_tile_position g t = some b ∧ inBox b p) := by
  subst hg
  have hd2 : 2 ≤ dimension := by rcases hdim with h | h | h | h <;> omega
  have hd5 : dimension ≤ 5 := by rcases hdim with h | h | h | h <;> omega
  have hds : dimension ≤ image_size := by omega
  have hts : 1 ≤ image_size / dimension := tileSize_pos dimension image_size (by omega) hds
  have hlast : (dimension - 1) * (image_size / dimension) ≤ image_size - 1 :=
    clamp_le dimension image_size (by omega) hds
  set D := dimension with hD
  set S := image_size with hS
  set ts := image_size / dimension with hts_def
  refine ⟨?_, ?_, ?_⟩
  · intro t h0 h1
    exact ⟨_, get_tile_position_eq _ t h0 h1⟩
  · intro t t' b b' p h0 h1 h0' h1' hne hb hb'
    rw [get_tile_position_eq _ t h0 h1] at hb
    rw [get_tile_position_eq _ t' h0' h1'] at hb'
    rw [Option.some_inj] at hb hb'
    subst hb
    subst hb'
    rintro ⟨hin, hin'⟩
    obtain ⟨hbx1, hbx2, hby1, hby2⟩ := hin
    obtain ⟨hbx1', hbx2', hby1', hby2'⟩ := hin'
    simp only [mkCoverArtGenerator] at hbx1 hbx2 hby1 hby2 hbx1' hbx2' hby1' hby2'
    have hx0 : 0 ≤ t % D := Int.emod_nonneg t (by omega)
    have hx1 : t % D < D := Int.emod_lt_of_pos t (by omega)
    have hy0 : 0 ≤ t / D := Int.ediv_nonneg h0 (by omega)
    have hy1 : t / D < D := by
      rw [Int.ediv_lt_iff_lt_mul (by omega)]
      exact h1
    have hx0' : 0 ≤ t' % D := Int.emod_nonneg t' (by omega)
    have hx1' : t' % D < D := Int.emod_lt_of_pos t' (by omega)
    have hy0' : 0 ≤ t' / D := Int.ediv_nonneg h0' (by omega)
    have hy1' : t' / D < D := by
      rw [Int.ediv_lt_iff_lt_mul (by omega)]
      exact h1'
    have hinj : t % D ≠ t' % D ∨ t / D ≠ t' / D := by
      by_contra hcon
      push_neg at hcon
      obtain ⟨hxx, hyy⟩ := hcon
      have e1 := Int.ediv_add_emod t D
      have e2 := Int.ediv_add_emod t' D
      apply hne
      rw [← e1, ← e2, hxx, hyy]
    rcases hinj with hxx | hyy
    · rcases lt_or_gt_of_ne hxx with hlt | hgt
      · exact axis_disjoint D S ts (t % D) (t' % D) p.1 hts hx0 hlt (by omega) hbx2 hbx1'
      · exact axis_disjoint D S ts (t' % D) (t % D) p.1 hts hx0' hgt (by omega) hbx2' hbx1
    · rcases lt_or_gt_of_ne hyy with hlt | hgt
      · exact axis_disjoint D S ts (t / D) (t' / D) p.2 hts hy0 hlt (by omega) hby2 hby1'
      · exact axis_disjoint D S ts (t' / D) (t / D) p.2 hts hy0' hgt (by omega) hby2' hby1
  · intro p
    constructor
    · rintro ⟨hpx0, hpx1, hpy0, hpy1⟩
      obtain ⟨x, hx0, hxd, hxin1, hxin2⟩ := axis_locate D S ts p.1 hd2 hts hpx0 hpx1
      obtain ⟨y, hy0, hyd, hyin1, hyin2⟩ := axis_locate D S ts p.2 hd2 hts hpy0 hpy1
      have ht0 : 0 ≤ D * y + x := by
        have : 0 ≤ D * y := mul_nonneg (by omega) hy0
        omega
      have ht1 : D * y + x < D * D := by
        have h1 : D * y ≤ D * (D - 1) := mul_le_mul_of_nonneg_left hyd (by omega)
        have e : D * (D - 1) = D * D - D := by ring
        omega
      have hmod : (D * y + x) % D = x := by
        rw [add_comm, Int.add_mul_emod_self_left, Int.emod_eq_of_lt hx0 (by omega)]
      have hdiv : (D * y + x) / D = y := by
        rw [add_comm, Int.add_mul_ediv_left x y (by omega : D ≠ 0),
          Int.ediv_eq_zero_of_lt hx0 (by omega), zero_add]
      refine ⟨D * y + x, _, ht0, ht1, get_tile_position_eq _ _ ht0 ht1, ?_⟩
      simp only [mkCoverArtGenerator]
      refine ⟨?_, ?_, ?_, ?_⟩ <;> simp only [hmod, hdiv]
      · exact hxin1
      · exact hxin2
      · exact hyin1
      · exact hyin2
    · rintro ⟨t, b, h0, h1, hb, hin⟩
      rw [get_tile_position_eq _ t h0 h1] at hb
      rw [Option.some_inj] at hb
      subst hb
      obtain ⟨hbx1, hbx2, hby1, hby2⟩ := hin
      simp only [mkCoverArtGenerator] at hbx1 hbx2 hby1 hby2
      have hx0 : 0 ≤ t % D := Int.emod_nonneg t (by omega)
      have hx1 : t % D < D := Int.emod_lt_of_pos t (by omega)
      have hy0 : 0 ≤ t / D := Int.ediv_nonneg h0 (by omega)
      have hy1 : t / D < D := by
        rw [Int.ediv_lt_iff_lt_mul (by omega)]
        exact h1
      obtain ⟨ha, hb1⟩ := axis_bounds D S ts (t % D) p.1 hts hlast hx0 (by omega) hbx1 hbx2
      obtain ⟨hc, hd1⟩ := axis_bounds D S ts (t / D) p.2 hts hlast hy0 (by omega) hby1 hby2
      exact ⟨ha, hb1, hc, hd1⟩

/-- Witness for C2 (amended): dimension 2, `image_size = 750` — the four boxes
are the claimed ones, and they tile `[0, 749)²` disjointly. -/
theorem c2_amended_witness :
    (get_tile_position gridW 0 = some ⟨0, 0, 375, 375⟩ ∧
     get_tile_position gridW 1 = some ⟨375, 0, 749, 375⟩ ∧
     get_tile_position gridW 2 = some ⟨0, 375, 375, 749⟩ ∧
     get_tile_position gridW 3 = some ⟨375, 375, 749, 749⟩) ∧
    ((∀ t, 0 ≤ t → t < 2 * 2 → ∃ b, get_tile_position gridW t = some b) ∧
     (∀ t t' b b' p, 0 ≤ t → t < 2 * 2 → 0 ≤ t' → t' < 2 * 2 → t ≠ t' →
       get_tile_position gridW t = some b → get_tile_position gridW t' = some b' →
       ¬ (inBox b p ∧ inBox b' p)) ∧
     (∀ p : Int × Int, (0 ≤ p.1 ∧ p.1 < 750 - 1 ∧ 0 ≤ p.2 ∧ p.2 < 750 - 1) ↔
       ∃ t b, 0 ≤ t ∧ t < 2 * 2 ∧ get_tile_position gridW t = some b ∧ inBox b p)) :=
  ⟨by decide,
   c2_amended_boxes_tile_clamped_square 2 750 "#FFFFFF" true true gridW rfl
     (Or.inl rfl) (by decide)⟩

/-! ## Claim C1: `calculate_bounding_box` returns the union box

The source folds the running bounds through a chain of `min`/`max` updates;
the lemmas below characterise such folds as least/greatest elements, and
`bbLoop_eq` rewrites the source's loop into explicit folds. -/

lemma foldl_min_le (l : List Int) : ∀ a : Int, l.foldl min a ≤ a := by
  induction l with
  | nil => intro a; simp
  | cons x xs ih =>
    intro a
    simp only [List.foldl_cons]
    exact le_trans (ih (min a x)) (min_le_left a x)

lemma foldl_min_le_mem (l : List Int) : ∀ (a b : Int), b ∈ l → l.foldl min a ≤ b := by
  induction l with
  | nil => intro a b hb; simp at hb
  | cons x xs ih =>
    intro a b hb
    rcases List.mem_cons.mp hb with rfl | hb'
    · simp only [List.foldl_cons]
      exact le_trans (foldl_min_le xs (min a b)) (min_le_right a b)
    · exact ih (min a x) b hb'

lemma foldl_min_mem (l : List Int) : ∀ a : Int, l.foldl min a = a ∨ l.foldl min a ∈ l := by
  induction l with
  | nil => intro a; left; rfl
  | cons x xs ih =>
    intro a
    simp only [List.foldl_cons]
    rcases ih (min a x) with h | h
    · rcases min_choice a x with hm | hm
      · left; rw [h, hm]
      · right; rw [h, hm]; exact List.mem_cons_self x xs
    · right; exact List.mem_cons_of_mem x h

lemma foldl_max_ge (l : List Int) : ∀ a : Int, a ≤ l.foldl max a := by
  induction l with
  | nil => intro a; simp
  | cons x xs ih =>
    intro a
    simp only [List.foldl_cons]
    exact le_trans (le_max_left a x) (ih (max a x))

lemma foldl_max_ge_mem (l : List Int) : ∀ (a b : Int), b ∈ l → b ≤ l.foldl max a := by
  induction l with
  | nil => intro a b hb; simp at hb
  | cons x xs ih =>
    intro a b hb
    rcases List.mem_cons.mp hb with rfl | hb'
    · simp only [List.foldl_cons]
      exact le_trans (le_max_right a b) (foldl_max_ge xs (max a b))
    · exact ih (max a x) b hb'

lemma foldl_max_mem (l : List Int) : ∀ a : Int, l.foldl max a = a ∨ l.foldl max a ∈ l := by
  induction l with
  | nil => intro a; left; rfl
  | cons x xs ih =>
    intro a
    simp only [List.foldl_cons]
    rcases ih (max a x) with h | h
    · rcases max_choice a x with hm | hm
      · left; rw [h, hm]
      · right; rw [h, hm]; exact List.mem_cons_self x xs
    · right; exact List.mem_cons_of_mem x h

/-- When each box satisfies `f b ≤ g b`, the `min`-fold over all `f`/`g`
values starting from `f b0` is the least of the `f` values. -/
lemma least_of_fold (boxes : List Box) (b0 : Box) (f g : Box → Int)
    (hwf : ∀ b ∈ b0 :: boxes, f b ≤ g b) :
    (boxes.flatMap (fun b => [f b, g b])).foldl min (f b0) ∈ (b0 :: boxes).map f ∧
    ∀ v ∈ (b0 :: boxes).map f, (boxes.flatMap (fun b => [f b, g b])).foldl min (f b0) ≤ v := by
  have hlb : ∀ v ∈ (b0 :: boxes).map f,
      (boxes.flatMap (fun b => [f b, g b])).foldl min (f b0) ≤ v := by
    intro v hv
    obtain ⟨b, hbmem, rfl⟩ := List.mem_map.mp hv
    rcases List.mem_cons.mp hbmem with rfl | hmem
    · exact foldl_min_le _ _
    · exact foldl_min_le_mem _ _ _ (List.mem_flatMap.mpr ⟨b, hmem, by simp⟩)
  refine ⟨?_, hlb⟩
  rcases foldl_min_mem (boxes.flatMap (fun b => [f b, g b])) (f b0) with h | h
  · rw [h]
    exact List.mem_map_of_mem f (List.mem_cons_self b0 boxes)
  · obtain ⟨b, hbmem, hfb⟩ := List.mem_flatMap.mp h
    simp only [List.mem_cons, List.mem_singleton, List.not_mem_nil, or_false] at hfb
    rcases hfb with hfb | hfb
    · rw [hfb]
      exact List.mem_map_of_mem f (List.mem_cons_of_mem b0 hbmem)
    · have h1 : (boxes.flatMap (fun b => [f b, g b])).foldl min (f b0) ≤ f b :=
        hlb (f b) (List.mem_map_of_mem f (List.mem_cons_of_mem b0 hbmem))
      have h2 : f b ≤ g b := hwf b (List.mem_cons_of_mem b0 hbmem)
      have h3 : (boxes.flatMap (fun b => [f b, g b])).foldl min (f b0) = f b := by omega
      rw [h3]
      exact List.mem_map_of_mem f (List.mem_cons_of_mem b0 hbmem)

/-- When each box satisfies `f b ≤ g b`, the `max`-fold over all `f`/`g`
values starting from `g b0` is the greatest of the `g` values. -/
lemma greatest_of_fold (boxes : List Box) (b0 : Box) (f g : Box → Int)
    (hwf : ∀ b ∈ b0 :: boxes, f b ≤ g b) :
    (boxes.flatMap (fun b => [f b, g b])).foldl max (g b0) ∈ (b0 :: boxes).map g ∧
    ∀ v ∈ (b0 :: boxes).map g, v ≤ (boxes.flatMap (fun b => [f b, g b])).foldl max (g b0) := by
  have hub : ∀ v ∈ (b0 :: boxes).map g,
      v ≤ (boxes.flatMap (fun b => [f b, g b])).foldl max (g b0) := by
    intro v hv
    obtain ⟨b, hbmem, rfl⟩ := List.mem_map.mp hv
    rcases List.mem_cons.mp hbmem with rfl | hmem
    · exact foldl_max_ge _ _
    · exact foldl_max_ge_mem _ _ _ (List.mem_flatMap.mpr ⟨b, hmem, by simp⟩)
  refine ⟨?_, hub⟩
  rcases foldl_max_mem (boxes.flatMap (fun b => [f b, g b])) (g b0) with h | h
  · rw [h]
    exact List.mem_map_of_mem g (List.mem_cons_self b0 boxes)
  · obtain ⟨b, hbmem, hfb⟩ := List.mem_flatMap.mp h
    simp only [List.mem_cons, List.mem_singleton, List.not_mem_nil, or_false] at hfb
    rcases hfb with hfb | hfb
    · have h1 : g b ≤ (boxes.flatMap (fun b => [f b, g b])).foldl max (g b0) :=
        hub (g b) (List.mem_map_of_mem g (List.mem_cons_of_mem b0 hbmem))
      have h2 : f b ≤ g b := hwf b (List.mem_cons_of_mem b0 hbmem)
      have h3 : (boxes.flatMap (fun b => [f b, g b])).foldl max (g b0) = g b := by omega
      rw [h3]
      exact List.mem_map_of_mem g (List.mem_cons_of_mem b0 hbmem)
    · rw [hfb]
      exact List.mem_map_of_mem g (List.mem_cons_of_mem b0 hbmem)

/-- Decompose a successful `mapM` over a cons (in the `Option` monad). -/
lemma optionMapM_cons_some {α β : Type} {f : α → Option β} {a : α} {as : List α}
    {ys : List β} (h : (a :: as).mapM f = some ys) :
    ∃ b bs, f a = some b ∧ as.mapM f = some bs ∧ ys = b :: bs := by
  rw [List.mapM_cons] at h
  cases hb : f a with
  | none => rw [hb] at h; simp at h
  | some b =>
    rw [hb] at h
    cases hbs : as.mapM f with
    | none => rw [hbs] at h; simp at h
    | some bs =>
      rw [hbs] at h
      simp at h
      exact ⟨b, bs, rfl, rfl, h.symm⟩

/-- A `mapM` over elements that all succeed succeeds. -/
lemma optionMapM_isSome {α β : Type} (f : α → Option β) :
    ∀ l : List α, (∀ a ∈ l, (f a).isSome) → ∃ ys, l.mapM f = some ys := by
  intro l
  induction l with
  | nil => intro _; exact ⟨[], rfl⟩
  | cons a as ih =>
    intro h
    obtain ⟨b, hb⟩ := Option.isSome_iff_exists.mp (h a (by simp))
    obtain ⟨ys, hys⟩ := ih (fun x hx => h x (by simp [hx]))
    refine ⟨b :: ys, ?_⟩
    rw [List.mapM_cons, hb, hys]
    rfl

/-- Every output of a successful `mapM` comes from some input. -/
lemma optionMapM_mem {α β : Type} {f : α → Option β} :
    ∀ {l : List α} {ys : List β}, l.mapM f = some ys →
      ∀ b ∈ ys, ∃ a ∈ l, f a = some b := by
  intro l
  induction l with
  | nil =>
    intro ys h b hb
    have hys : ([] : List β) = ys := Option.some_inj.mp h
    rw [← hys] at hb
    simp at hb
  | cons a as ih =>
    intro ys h b hb
    obtain ⟨b0, bs, hb0, hbs, rfl⟩ := optionMapM_cons_some h
    rcases List.mem_cons.mp hb with rfl | hb'
    · exact ⟨a, by simp, hb0⟩
    · obtain ⟨x, hx, hfx⟩ := ih hbs b hb'
      exact ⟨x, by simp [hx], hfx⟩

/-- `str.split` never produces an empty token list. -/
lemma splitCommaChars_ne_nil : ∀ cs : List Char, splitCommaChars cs ≠ [] := by
  intro cs
  induction cs with
  | nil => simp [splitCommaChars]
  | cons c rest ih =>
    simp only [splitCommaChars]
    by_cases h : c = ','
    · simp [h]
    · rw [if_neg h]
      cases hs : splitCommaChars rest with
      | nil => exact absurd hs ih
      | cons t ts => simp

/-- The box of every valid cell is well-formed: `x1 ≤ x2` and `y1 ≤ y2`. -/
lemma tile_box_wf (dimension image_size : Int) (background : String)
    (skip_missing show_caa : Bool) (hd2 : 2 ≤ dimension) (hds : dimension ≤ image_size)
    (t : Int) (b : Box) (h0 : 0 ≤ t) (h1 : t < dimension * dimension)
    (hb : get_tile_position
      (mkCoverArtGenerator dimension image_size background skip_missing show_caa) t =
      some b) : b.x1 ≤ b.x2 ∧ b.y1 ≤ b.y2 := by
  rw [get_tile_position_eq _ t h0 h1, Option.some_inj] at hb
  subst hb
  simp only [mkCoverArtGenerator]
  have hts : 1 ≤ image_size / dimension := tileSize_pos dimension image_size (by omega) hds
  have hlast : (dimension - 1) * (image_size / dimension) ≤ image_size - 1 :=
    clamp_le dimension image_size (by omega) hds
  have hx0 : 0 ≤ t % dimension := Int.emod_nonneg t (by omega)
  have hx1 : t % dimension < dimension := Int.emod_lt_of_pos t (by omega)
  have hy0 : 0 ≤ t / dimension := Int.ediv_nonneg h0 (by omega)
  have hy1 : t / dimension < dimension := by
    rw [Int.ediv_lt_iff_lt_mul (by omega)]
    exact h1
  constructor
  · by_cases h : t % dimension = dimension - 1
    · rw [if_pos h, h]
      exact hlast
    · rw [if_neg h]
      exact mul_le_mul_of_nonneg_right (by omega) (by omega)
  · by_cases h : t / dimension = dimension - 1
    · rw [if_pos h, h]
      exact hlast
    · rw [if_neg h]
      exact mul_le_mul_of_nonneg_right (by omega) (by omega)

/-- The source's `min`/`max` accumulation loop, written as explicit folds over
the member boxes' coordinate values. -/
lemma bbLoop_eq (g : CoverArtGenerator) :
    ∀ (L : List Int) (bb : Box) (boxes : List Box),
      L.mapM (get_tile_position g) = some boxes →
      bbLoop g bb L = some ⟨
        ((boxes.flatMap (fun b => [b.x1, b.x2])).foldl min bb.x1),
        ((boxes.flatMap (fun b => [b.y1, b.y2])).foldl min bb.y1),
        ((boxes.flatMap (fun b => [b.x1, b.x2])).foldl max bb.x2),
        ((boxes.flatMap (fun b => [b.y1, b.y2])).foldl max bb.y2)⟩ := by
  intro L
  induction L with
  | nil =>
    intro bb boxes h
    have hbx : ([] : List Box) = boxes := Option.some_inj.mp h
    subst hbx
    simp [bbLoop]
  | cons t L' ih =>
    intro bb boxes h
    obtain ⟨bt, rest, hbt, hrest, rfl⟩ := optionMapM_cons_some h
    simp only [bbLoop, hbt]
    rw [ih ⟨min (min bb.x1 bt.x1) bt.x2, min (min bb.y1 bt.y1) bt.y2,
      max (max bb.x2 bt.x1) bt.x2, max (max bb.y2 bt.y1) bt.y2⟩ rest hrest]
    simp [List.flatMap_cons, List.foldl_append]

/-- C1: for a valid dimension and any comma-separated address whose tokens
all parse as integers in `[0, dimension²)`, `calculate_bounding_box` returns
exactly the union of the member cells' `tile_position` boxes: its `x1`/`y1`
are the least of the cells' `x1`/`y1` values and its `x2`/`y2` the greatest
of their `x2`/`y2` values (despite the source also folding each box's far
corner into the running minimum and near corner into the running maximum,
which well-formedness of the boxes makes harmless).  A single-cell address
therefore degenerates to that cell's own box. -/
theorem c1_bounding_box_is_union_of_cells (dimension image_size : Int)
    (background : String) (skip_missing show_caa : Bool) (g : CoverArtGenerator)
    (hg : g = mkCoverArtGenerator dimension image_size background skip_missing show_caa)
    (hdim : dimension = 2 ∨ dimension = 3 ∨ dimension = 4 ∨ dimension = 5)
    (hsize : 128 ≤ image_size ∧ image_size ≤ 1024)
    (address : String) (tiles : List Int)
    (hparse : (pySplitComma address).mapM (fun t => pyInt 10 (pyStrip t)) = some tiles)
    (hrange : ∀ t ∈ tiles, 0 ≤ t ∧ t < dimension * dimension) :
    ∃ boxes bb, tiles.mapM (get_tile_position g) = some boxes ∧
      calculate_bounding_box g address = some bb ∧
      (bb.x1 ∈ boxes.map Box.x1 ∧ ∀ v ∈ boxes.map Box.x1, bb.x1 ≤ v) ∧
      (bb.y1 ∈ boxes.map Box.y1 ∧ ∀ v ∈ boxes.map Box.y1, bb.y1 ≤ v) ∧
      (bb.x2 ∈ boxes.map Box.x2 ∧ ∀ v ∈ boxes.map Box.x2, v ≤ bb.x2) ∧
      (bb.y2 ∈ boxes.map Box.y2 ∧ ∀ v ∈ boxes.map Box.y2, v ≤ bb.y2) := by
  subst hg
  have hd2 : 2 ≤ dimension := by rcases hdim with h | h | h | h <;> omega
  have hd5 : dimension ≤ 5 := by rcases hdim with h | h | h | h <;> omega
  have hds : dimension ≤ image_size := by omega
  set gg := mkCoverArtGenerator dimension image_size background skip_missing show_caa
    with hgg
  have hne : tiles ≠ [] := by
    intro hnil
    subst hnil
    cases hsp : pySplitComma address with
    | nil =>
      have h0 : splitCommaChars address.toList = [] := by
        have hsp' := hsp
        simp only [pySplitComma] at hsp'
        exact List.map_eq_nil_iff.mp hsp'
      exact splitCommaChars_ne_nil address.toList h0
    | cons a as =>
      rw [hsp] at hparse
      obtain ⟨b, bs, _, _, hcons⟩ := optionMapM_cons_some hparse
      simp at hcons
  obtain ⟨t0, rest, rfl⟩ := List.exists_cons_of_ne_nil hne
  have hsome : ∀ t ∈ t0 :: rest, (get_tile_position gg t).isSome := by
    intro t ht
    rw [get_tile_position_eq gg t (hrange t ht).1 (hrange t ht).2]
    rfl
  obtain ⟨boxes0, hboxes⟩ := optionMapM_isSome (get_tile_position gg) (t0 :: rest) hsome
  obtain ⟨b0, brest, hb0, hbrest, rfl⟩ := optionMapM_cons_some hboxes
  have hwf : ∀ b ∈ b0 :: brest, b.x1 ≤ b.x2 ∧ b.y1 ≤ b.y2 := by
    intro b hbmem
    rcases List.mem_cons.mp hbmem with rfl | hmem
    · exact tile_box_wf dimension image_size background skip_missing show_caa hd2 hds t0 b
        (hrange t0 (by simp)).1 (hrange t0 (by simp)).2 hb0
    · obtain ⟨t, htmem, hft⟩ := optionMapM_mem hbrest b hmem
      exact tile_box_wf dimension image_size background skip_missing show_caa hd2 hds t b
        (hrange t (by simp [htmem])).1 (hrange t (by simp [htmem])).2 hft
  have hcalc : calculate_bounding_box gg address = bbLoop gg b0 rest := by
    have hall : ((t0 :: rest).all
        (fun t => decide (0 ≤ t) && decide (t < gg.dimension * gg.dimension))) = true := by
      rw [List.all_eq_true]
      intro t ht
      obtain ⟨ha, hb⟩ := hrange t ht
      simp only [Bool.and_eq_true, decide_eq_true_eq]
      exact ⟨ha, hb⟩
    simp only [calculate_bounding_box, hparse, hall, if_true, hb0]
  rw [bbLoop_eq gg rest b0 brest hbrest] at hcalc
  refine ⟨b0 :: brest, _, hboxes, hcalc, ?_, ?_, ?_, ?_⟩
  · exact least_of_fold brest b0 Box.x1 Box.x2 (fun b hb => (hwf b hb).1)
  · exact least_of_fold brest b0 Box.y1 Box.y2 (fun b hb => (hwf b hb).2)
  · exact greatest_of_fold brest b0 Box.x1 Box.x2 (fun b hb => (hwf b hb).1)
  · exact greatest_of_fold brest b0 Box.y1 Box.y2 (fun b hb => (hwf b hb).2)

/-- Witness for C1: on the 3×3 grid with `image_size = 750`, the address
`"0,1,3,4"` returns exactly the box `(0, 0, 500, 500)` spanning cells
0, 1, 3 and 4, a single-cell address returns that cell's own box, and the
union characterisation holds for the parsed tiles `[0, 1, 3, 4]`. -/
theorem c1_witness :
    calculate_bounding_box (mkCoverArtGenerator 3 750 "#FFFFFF" true true) "0,1,3,4" =
      some ⟨0, 0, 500, 500⟩ ∧
    calculate_bounding_box (mkCoverArtGenerator 3 750 "#FFFFFF" true true) "7" =
      get_tile_position (mkCoverArtGenerator 3 750 "#FFFFFF" true true) 7 ∧
    (∃ boxes bb,
      ([0, 1, 3, 4] : List Int).mapM
        (get_tile_position (mkCoverArtGenerator 3 750 "#FFFFFF" true true)) = some boxes ∧
      calculate_bounding_box (mkCoverArtGenerator 3 750 "#FFFFFF" true true) "0,1,3,4" =
        some bb ∧
      (bb.x1 ∈ boxes.map Box.x1 ∧ ∀ v ∈ boxes.map Box.x1, bb.x1 ≤ v) ∧
      (bb.y1 ∈ boxes.map Box.y1 ∧ ∀ v ∈ boxes.map Box.y1, bb.y1 ≤ v) ∧
      (bb.x2 ∈ boxes.map Box.x2 ∧ ∀ v ∈ boxes.map Box.x2, v ≤ bb.x2) ∧
      (bb.y2 ∈ boxes.map Box.y2 ∧ ∀ v ∈ boxes.map Box.y2, v ≤ bb.y2)) :=
  ⟨by decide, by decide,
   c1_bounding_box_is_union_of_cells 3 750 "#FFFFFF" true true _ rfl
     (Or.inr (Or.inl rfl)) (by decide) "0,1,3,4" [0, 1, 3, 4] (by decide) (by decide)⟩
